import Mathlib

/-!
Verification of the sales ETL pipeline core: the cleaner, enricher, aggregators,
loader and validator (src/etl/transform.py, src/etl/load.py, dags/sales_etl_dag.py),
shallowly embedded in Lean.  Python floats are modelled by exact rationals, Python
dicts of accumulators by association lists in insertion order, and database tables
by lists of rows together with the unique constraints declared in
DataLoader.create_tables.
-/

namespace ETL

/-- Untyped Python values as they appear in raw extractor records. -/
inductive Value where
  | str : String → Value
  | int : Int → Value
  | rat : Rat → Value
  | none : Value
deriving DecidableEq

/-- Numeric value of a list of decimal digit characters. -/
def digitsToNat (cs : List Char) : Nat :=
  cs.foldl (fun n c => n * 10 + (c.toNat - 48)) 0

/-- Split a leading run of decimal digits from the rest of the characters. -/
def takeDigits : List Char → List Char × List Char
  | [] => ([], [])
  | c :: cs =>
    if c.isDigit then
      let p := takeDigits cs
      (c :: p.1, p.2)
    else ([], c :: cs)

/-- An optional leading sign, returned as 1 or -1 together with the remainder. -/
def parseSign : List Char → Int × List Char
  | '-' :: cs => (-1, cs)
  | '+' :: cs => (1, cs)
  | cs => (1, cs)

/-- Drop leading whitespace characters. -/
def dropWhileWs : List Char → List Char
  | [] => []
  | c :: cs => if c.isWhitespace then dropWhileWs cs else c :: cs

/-- Whitespace removed from both ends, the behaviour of Python str.strip()
and of String.trim. -/
def stripChars (cs : List Char) : List Char :=
  dropWhileWs (dropWhileWs cs.reverse).reverse

/-- Python str.strip() on a string. -/
def pyStrip (s : String) : String :=
  String.mk (stripChars s.data)

/-- Python float(string) on a stripped character list: optional sign, decimal
digits with an optional fractional part, and an optional exponent.  The special
values inf and nan are not representable as rationals and are mapped to failure;
no property below depends on them. -/
def parseFloatChars (cs : List Char) : Option Rat :=
  let s := parseSign cs
  let ip := takeDigits s.2
  let fp :=
    match ip.2 with
    | '.' :: rest => takeDigits rest
    | other => (([] : List Char), other)
  if ip.1.isEmpty && fp.1.isEmpty then Option.none
  else
    let mant : Rat := (digitsToNat (ip.1 ++ fp.1) : Rat) / (10 : Rat) ^ fp.1.length
    let signed : Rat := (s.1 : Rat) * mant
    match fp.2 with
    | [] => Option.some signed
    | 'e' :: rest =>
      let es := parseSign rest
      let ed := takeDigits es.2
      if ed.1.isEmpty || !ed.2.isEmpty then Option.none
      else Option.some (signed * (10 : Rat) ^ ((es.1 : Int) * (digitsToNat ed.1 : Int)))
    | 'E' :: rest =>
      let es := parseSign rest
      let ed := takeDigits es.2
      if ed.1.isEmpty || !ed.2.isEmpty then Option.none
      else Option.some (signed * (10 : Rat) ^ ((es.1 : Int) * (digitsToNat ed.1 : Int)))
    | _ => Option.none

/-- Python int(string) on a stripped character list: optional sign and digits. -/
def parseIntChars (cs : List Char) : Option Int :=
  let s := parseSign cs
  let ds := takeDigits s.2
  if ds.1.isEmpty || !ds.2.isEmpty then Option.none
  else Option.some (s.1 * (digitsToNat ds.1 : Int))

/-- Truncation toward zero, the behaviour of Python int() on a float. -/
def truncRat (q : Rat) : Int :=
  if q < 0 then -(Int.floor (-q)) else Int.floor q

/-- Python str() of a value.  Non-integral rationals are rendered as num/den;
exact decimal float formatting is not needed by any property below, since str()
is only ever applied to the product_name, region and customer_id fields. -/
def pyStr : Value → String
  | Value.str s => s
  | Value.int n => toString n
  | Value.rat q => if q.den = 1 then toString q.num ++ ".0" else toString q.num ++ "/" ++ toString q.den
  | Value.none => "None"

/-- Python float() of a value; failure stands for the ValueError or TypeError raised. -/
def pyFloat : Value → Option Rat
  | Value.str s => parseFloatChars (stripChars s.data)
  | Value.int n => Option.some (n : Rat)
  | Value.rat q => Option.some q
  | Value.none => Option.none

/-- Python int() of a value; failure stands for the ValueError or TypeError raised. -/
def pyInt : Value → Option Int
  | Value.str s => parseIntChars (stripChars s.data)
  | Value.int n => Option.some n
  | Value.rat q => Option.some (truncRat q)
  | Value.none => Option.none

/-- Python str.title() on the characters: an alphabetic character is uppercased
when the previous character is not alphabetic and lowercased otherwise. -/
def titleChars : List Char → Bool → List Char
  | [], _ => []
  | c :: cs, prevAlpha =>
    (if c.isAlpha then (if prevAlpha then c.toLower else c.toUpper) else c)
      :: titleChars cs c.isAlpha

/-- Python str.title(). -/
def pyTitle (s : String) : String :=
  String.mk (titleChars s.data false)

/-- A calendar date as produced by datetime.strptime with format %Y-%m-%d. -/
structure Date where
  year : Nat
  month : Nat
  day : Nat
deriving DecidableEq

/-- The string is nonempty and consists of decimal digits only. -/
def allDigits (s : String) : Bool :=
  !s.data.isEmpty && s.data.all (·.isDigit)

/-- Numeric value of an all-digits string. -/
def natOfDigits (s : String) : Nat :=
  digitsToNat s.data

/-- The month component pattern of strptime: one or two digits with value 1..12. -/
def monthOk (s : String) : Bool :=
  allDigits s && s.length ≤ 2 && decide (1 ≤ natOfDigits s) && decide (natOfDigits s ≤ 12)

/-- The day component pattern of strptime: one or two digits with value 1..31. -/
def dayOk (s : String) : Bool :=
  allDigits s && s.length ≤ 2 && decide (1 ≤ natOfDigits s) && decide (natOfDigits s ≤ 31)

/-- Gregorian leap year, as used by datetime. -/
def isLeap (y : Nat) : Bool :=
  (y % 4 == 0 && y % 100 != 0) || y % 400 == 0

/-- Number of days of a month, as enforced by the datetime constructor. -/
def daysInMonth (y m : Nat) : Nat :=
  if m = 2 then (if isLeap y then 29 else 28)
  else if m = 4 ∨ m = 6 ∨ m = 9 ∨ m = 11 then 30
  else 31

/-- Split a character list on the dash character: the behaviour of
String.splitOn with separator "-". -/
def splitOnDash : List Char → List (List Char)
  | [] => [[]]
  | c :: rest =>
    let r := splitOnDash rest
    if c = '-' then [] :: r
    else (c :: r.headD []) :: r.tail

/-- datetime.strptime(s, %Y-%m-%d): a four digit year, a dash, a one or two digit
month, a dash, a one or two digit day, consuming the whole string, followed by the
calendar validity check of the datetime constructor (year at least 1, day within
the month). -/
def parseDate (s : String) : Option Date :=
  match (splitOnDash s.data).map String.mk with
  | [ys, ms, ds] =>
    if allDigits ys && ys.length == 4 && monthOk ms && dayOk ds then
      let y := natOfDigits ys
      let m := natOfDigits ms
      let d := natOfDigits ds
      if 1 ≤ y ∧ d ≤ daysInMonth y m then Option.some ⟨y, m, d⟩ else Option.none
    else Option.none
  | _ => Option.none

/-- A raw extractor record: a Python dict in which each of the six recognised
fields may be absent. -/
structure RawRecord where
  product_name : Option Value
  sales_amount : Option Value
  sale_date : Option Value
  region : Option Value
  customer_id : Option Value
  quantity : Option Value
deriving DecidableEq

/-- A cleaned record as produced by DataTransformer.clean_sales_data. -/
structure CleanRecord where
  product_name : String
  sales_amount : Rat
  sale_date : String
  region : String
  customer_id : String
  quantity : Int
deriving DecidableEq

/-- The body of the per-record loop of clean_sales_data: mandatory-field check,
coercions (whose failure is the caught ValueError or TypeError), the positive
amount rule, the clamp of a non-positive quantity to 1, and the date parse.
Failure stands for the record being skipped and counted invalid. -/
def cleanOne (r : RawRecord) : Option CleanRecord :=
  match r.product_name, r.sales_amount, r.sale_date with
  | Option.some pn, Option.some sa, Option.some sd =>
    match pyFloat sa, pyInt ((r.quantity).getD (Value.int 1)) with
    | Option.some amount, Option.some qty0 =>
      if amount ≤ 0 then Option.none
      else
        let qty := if qty0 ≤ 0 then 1 else qty0
        match sd with
        | Value.str ds =>
          match parseDate ds with
          | Option.some _ =>
            Option.some
              { product_name := pyTitle (pyStrip (pyStr pn))
                sales_amount := amount
                sale_date := ds
                region := pyTitle (pyStrip (pyStr ((r.region).getD (Value.str "Unknown"))))
                customer_id := pyStrip (pyStr ((r.customer_id).getD (Value.str "")))
                quantity := qty }
          | Option.none => Option.none
        | _ => Option.none
    | _, _ => Option.none
  | _, _, _ => Option.none

/-- DataTransformer.clean_sales_data: the kept records in order, together with the
count of invalid records. -/
def clean_sales_data (data : List RawRecord) : List CleanRecord × Nat :=
  data.foldl
    (fun acc r =>
      match cleanOne r with
      | Option.some c => (acc.1 ++ [c], acc.2)
      | Option.none => (acc.1, acc.2 + 1))
    ([], 0)

/-- A cleaned record together with the fields added by add_calculated_fields. -/
structure EnrichedRecord extends CleanRecord where
  total_value : Rat
  sale_month : Option String
  sale_year : Option Int
  sale_quarter : Option String
deriving DecidableEq

/-- Left-pad a string with zeros to the given width, as strftime does. -/
def padZeros (w : Nat) (s : String) : String :=
  String.mk (List.replicate (w - s.length) '0') ++ s

/-- strftime %Y-%m. -/
def formatYearMonth (d : Date) : String :=
  padZeros 4 (toString d.year) ++ "-" ++ padZeros 2 (toString d.month)

/-- The quarter string computed by add_calculated_fields. -/
def quarterOf (d : Date) : String :=
  "Q" ++ toString ((d.month - 1) / 3 + 1)

/-- The per-record body of DataTransformer.add_calculated_fields.  The in-place
dict mutation of the source is embedded as construction of the extended record. -/
def enrichOne (r : CleanRecord) : EnrichedRecord :=
  { toCleanRecord := r
    total_value := r.sales_amount * (r.quantity : Rat)
    sale_month :=
      match parseDate r.sale_date with
      | Option.some d => Option.some (formatYearMonth d)
      | Option.none => Option.none
    sale_year :=
      match parseDate r.sale_date with
      | Option.some d => Option.some (d.year : Int)
      | Option.none => Option.none
    sale_quarter :=
      match parseDate r.sale_date with
      | Option.some d => Option.some (quarterOf d)
      | Option.none => Option.none }

/-- DataTransformer.add_calculated_fields. -/
def add_calculated_fields (data : List CleanRecord) : List EnrichedRecord :=
  data.map enrichOne

/-- First-occurrence deduplication: the distinct elements of a list in the order
in which they first appear, i.e. the key order of a Python dict built by
insertion. -/
def dedupFirst (l : List String) : List String :=
  l.foldl (fun acc k => if k ∈ acc then acc else acc ++ [k]) []

section DictFold

variable {α β : Type}

/-- Update-or-insert into an association list in insertion order: the lookup,
zero-row insertion and increment performed for one record against the Python
dict of accumulators, fused into one traversal. -/
def dictUpsert (keyOf : β → String) (key : α → String) (bump : β → α → β)
    (init : String → β) (a : α) : List β → List β
  | [] => [bump (init (key a)) a]
  | b :: rest =>
    if keyOf b = key a then bump b a :: rest
    else b :: dictUpsert keyOf key bump init a rest

/-- The whole grouping loop: every record folded into the accumulator dict. -/
def dictFold (keyOf : β → String) (key : α → String) (bump : β → α → β)
    (init : String → β) (l : List α) : List β :=
  l.foldl (fun acc a => dictUpsert keyOf key bump init a acc) []

/-- The accumulator a single group ends up with: the fold of the bump over the
records whose key matches, starting from the zero row. -/
def dictSpec (key : α → String) (bump : β → α → β) (init : String → β)
    (k : String) (l : List α) : β :=
  (l.filter (fun a => key a == k)).foldl bump (init k)

end DictFold

/-- A region accumulator row before averages are attached. -/
structure RegionAcc where
  region : String
  total_sales : Nat
  total_revenue : Rat
  total_quantity : Int
  product_count : Nat
deriving DecidableEq

/-- The zero row inserted when a region is first seen. -/
def RegionAcc.init (k : String) : RegionAcc :=
  ⟨k, 0, 0, 0, 0⟩

/-- The four increments performed for one record in aggregate_sales_by_region. -/
def bumpRegion (a : RegionAcc) (r : CleanRecord) : RegionAcc :=
  { a with
    total_sales := a.total_sales + 1
    total_revenue := a.total_revenue + r.sales_amount
    total_quantity := a.total_quantity + r.quantity
    product_count := a.product_count + 1 }

/-- A finished region aggregate row. -/
structure RegionRow where
  region : String
  total_sales : Nat
  total_revenue : Rat
  total_quantity : Int
  product_count : Nat
  avg_sale_amount : Rat
  avg_quantity : Rat
deriving DecidableEq

/-- The averages pass of aggregate_sales_by_region, with its division guard. -/
def finalizeRegion (a : RegionAcc) : RegionRow :=
  { region := a.region
    total_sales := a.total_sales
    total_revenue := a.total_revenue
    total_quantity := a.total_quantity
    product_count := a.product_count
    avg_sale_amount := if a.total_sales > 0 then a.total_revenue / (a.total_sales : Rat) else 0
    avg_quantity := if a.total_sales > 0 then (a.total_quantity : Rat) / (a.total_sales : Rat) else 0 }

/-- DataTransformer.aggregate_sales_by_region. -/
def aggregate_sales_by_region (l : List CleanRecord) : List RegionRow :=
  (dictFold (fun a => a.region) (fun r => r.region) bumpRegion RegionAcc.init l).map
    finalizeRegion

/-- A product accumulator row, carrying the set of regions seen so far. -/
structure ProductAcc where
  product_name : String
  total_sales : Nat
  total_revenue : Rat
  total_quantity : Int
  regions : Finset String

/-- The zero row inserted when a product is first seen. -/
def ProductAcc.init (k : String) : ProductAcc :=
  ⟨k, 0, 0, 0, ∅⟩

/-- The increments performed for one record in aggregate_sales_by_product,
including adding the region of the record to the region set. -/
def bumpProduct (a : ProductAcc) (r : CleanRecord) : ProductAcc :=
  { a with
    total_sales := a.total_sales + 1
    total_revenue := a.total_revenue + r.sales_amount
    total_quantity := a.total_quantity + r.quantity
    regions := insert r.region a.regions }

/-- A finished product aggregate row; the region set has been replaced by its
cardinality. -/
structure ProductRow where
  product_name : String
  total_sales : Nat
  total_revenue : Rat
  total_quantity : Int
  region_count : Nat
  avg_sale_amount : Rat
  avg_quantity : Rat
deriving DecidableEq

/-- The averages-and-region-count pass of aggregate_sales_by_product. -/
def finalizeProduct (a : ProductAcc) : ProductRow :=
  { product_name := a.product_name
    total_sales := a.total_sales
    total_revenue := a.total_revenue
    total_quantity := a.total_quantity
    region_count := a.regions.card
    avg_sale_amount := if a.total_sales > 0 then a.total_revenue / (a.total_sales : Rat) else 0
    avg_quantity := if a.total_sales > 0 then (a.total_quantity : Rat) / (a.total_sales : Rat) else 0 }

/-- One step of the stable descending sort on total_revenue: the row is placed
before the first row whose revenue does not exceed it, so rows of equal revenue
keep their relative order.  Extensionally the Python list.sort with
key total_revenue and reverse set. -/
def insertByRevenueDesc (a : ProductRow) : List ProductRow → List ProductRow
  | [] => [a]
  | b :: rest =>
    if b.total_revenue ≤ a.total_revenue then a :: b :: rest
    else b :: insertByRevenueDesc a rest

/-- Stable descending sort on total_revenue. -/
def sortByRevenueDesc : List ProductRow → List ProductRow
  | [] => []
  | a :: rest => insertByRevenueDesc a (sortByRevenueDesc rest)

/-- The product aggregate rows in first-encounter order, before the sort. -/
def productRowsUnsorted (l : List CleanRecord) : List ProductRow :=
  (dictFold (fun a => a.product_name) (fun r => r.product_name) bumpProduct ProductAcc.init
    l).map finalizeProduct

/-- DataTransformer.aggregate_sales_by_product. -/
def aggregate_sales_by_product (l : List CleanRecord) : List ProductRow :=
  sortByRevenueDesc (productRowsUnsorted l)

/-- The state of the three tables created by DataLoader.create_tables. -/
structure DBState where
  sales_data : List EnrichedRecord
  region_aggregates : List RegionRow
  product_aggregates : List ProductRow
deriving DecidableEq

/-- The unique constraints of the sales_data table per create_tables: none.  The
only uniqueness is the auto-generated SERIAL primary key, which never collides
with inserted data, so the list of data-visible unique keys is empty. -/
def sales_data_unique_keys : List (EnrichedRecord → String) := []

/-- The unique constraint of region_aggregates per create_tables: region UNIQUE. -/
def region_aggregates_unique_keys : List (RegionRow → String) := [fun r => r.region]

/-- The unique constraint of product_aggregates per create_tables:
product_name UNIQUE. -/
def product_aggregates_unique_keys : List (ProductRow → String) := [fun p => p.product_name]

/-- INSERT ... ON CONFLICT DO NOTHING: the row is appended unless it collides
with an existing row on some unique constraint of the table. -/
def insertSkipConflict {α : Type} (uniqueKeys : List (α → String)) (t : List α) (r : α) :
    List α :=
  if uniqueKeys.any (fun k => t.any (fun x => k x == k r)) then t else t ++ [r]

/-- A plain INSERT: a collision on a unique constraint raises. -/
def insertStrict {α : Type} (uniqueKeys : List (α → String)) (t : List α) (r : α) :
    Except String (List α) :=
  if uniqueKeys.any (fun k => t.any (fun x => k x == k r)) then
    Except.error "duplicate key value violates unique constraint"
  else Except.ok (t ++ [r])

/-- The insert loop shared by the aggregate loaders: rows are inserted one at a
time; a failure raises at once, leaving the rows already inserted committed (each
command is its own unit of work), and the count of inserted rows is returned on
success. -/
def insertRows {α : Type} (uniqueKeys : List (α → String)) :
    List α → List α → List α × Except String Nat
  | t, [] => (t, Except.ok 0)
  | t, r :: rest =>
    match insertStrict uniqueKeys t r with
    | Except.error e => (t, Except.error e)
    | Except.ok t₂ =>
      match insertRows uniqueKeys t₂ rest with
      | (t₃, Except.ok n) => (t₃, Except.ok (n + 1))
      | (t₃, Except.error e) => (t₃, Except.error e)

/-- DataLoader.load_sales_data: each record is submitted with ON CONFLICT DO
NOTHING against sales_data, and the count of submitted records is returned. -/
def load_sales_data (s : DBState) (data : List EnrichedRecord) : DBState × Nat :=
  (data.foldl
      (fun st r =>
        { st with sales_data := insertSkipConflict sales_data_unique_keys st.sales_data r })
      s,
   data.length)

/-- DataLoader.load_region_aggregates: the delete is performed only when
confirm_delete holds (the Python default is false), then the rows are inserted
with plain INSERT statements. -/
def load_region_aggregates (s : DBState) (data : List RegionRow) (confirm_delete : Bool) :
    DBState × Except String Nat :=
  let base := if confirm_delete then ([] : List RegionRow) else s.region_aggregates
  let p := insertRows region_aggregates_unique_keys base data
  ({ s with region_aggregates := p.1 }, p.2)

/-- DataLoader.load_product_aggregates: when confirm_delete holds (the Python
default is true) all rows are deleted and the new rows inserted; when it is
passed false the loader raises the confirmation ValueError before touching the
table. -/
def load_product_aggregates (s : DBState) (data : List ProductRow) (confirm_delete : Bool) :
    DBState × Except String Nat :=
  if confirm_delete then
    let p := insertRows product_aggregates_unique_keys [] data
    ({ s with product_aggregates := p.1 }, p.2)
  else
    (s, Except.error "Delete operation requires explicit confirmation.")

/-- The cross-table summary consumed by the validator. -/
structure PipelineSummary where
  sales_records : Nat
  total_revenue : Rat
  regions : Nat
  products : Nat
deriving DecidableEq

/-- The validate_data task of dags/sales_etl_dag.py: the four invariant checks in
order, each raising its own descriptive ValueError, short-circuiting at the first
violation. -/
def validate_data (s : PipelineSummary) : Except String String :=
  if s.sales_records = 0 then Except.error "No sales records found in database"
  else if s.total_revenue ≤ 0 then Except.error "Total revenue should be positive"
  else if s.regions = 0 then Except.error "No regional data found"
  else if s.products = 0 then Except.error "No product data found"
  else Except.ok "Data validation successful"

/-- The records of the list attributed to region k. -/
def regionGroup (k : String) (l : List CleanRecord) : List CleanRecord :=
  l.filter fun r => r.region == k

/-- The records of the list attributed to product k. -/
def productGroup (k : String) (l : List CleanRecord) : List CleanRecord :=
  l.filter fun r => r.product_name == k

/-- The two-record North example of the spec. -/
def northExample : List CleanRecord :=
  [{ product_name := "Widget", sales_amount := 100, sale_date := "2024-01-01",
     region := "North", customer_id := "", quantity := 1 },
   { product_name := "Gadget", sales_amount := 50, sale_date := "2024-01-02",
     region := "North", customer_id := "", quantity := 2 }]

/-- A raw record whose quantity value is a non-numeric string; every other
field is present and valid. -/
def badQuantityRecord : RawRecord :=
  { product_name := Option.some (Value.str "Widget")
    sales_amount := Option.some (Value.int 100)
    sale_date := Option.some (Value.str "2024-03-17")
    region := Option.some (Value.str "North")
    customer_id := Option.none
    quantity := Option.some (Value.str "abc") }

/-- A raw record with quantity zero and all other fields valid. -/
def zeroQuantityRecord : RawRecord :=
  { product_name := Option.some (Value.str "Widget")
    sales_amount := Option.some (Value.int 100)
    sale_date := Option.some (Value.str "2024-03-17")
    region := Option.some (Value.str "North")
    customer_id := Option.none
    quantity := Option.some (Value.int 0) }

/-- A sample clean record whose sale date is 2024-03-17. -/
def marchRecord : CleanRecord :=
  { product_name := "Widget", sales_amount := 100, sale_date := "2024-03-17",
    region := "North", customer_id := "", quantity := 2 }

/-- A sample enriched record used to exercise the loader. -/
def sampleEnriched : EnrichedRecord :=
  { product_name := "Widget", sales_amount := 100, sale_date := "2024-03-17",
    region := "North", customer_id := "", quantity := 2, total_value := 200,
    sale_month := Option.some "2024-03", sale_year := Option.some 2024,
    sale_quarter := Option.some "Q1" }

/-- The empty database state. -/
def emptyDB : DBState := ⟨[], [], []⟩

/-! ### Lemmas about first-occurrence deduplication -/

lemma dedupFirst_go_mem (l : List String) (acc : List String) (a : String) :
    (a ∈ l.foldl (fun acc k => if k ∈ acc then acc else acc ++ [k]) acc) ↔ a ∈ acc ∨ a ∈ l := by
  induction l generalizing acc with
  | nil => simp
  | cons x xs ih =>
    simp only [List.foldl_cons, ih]
    by_cases hx : x ∈ acc
    · simp only [if_pos hx, List.mem_cons]
      constructor
      · tauto
      · rintro (h | h | h)
        · exact Or.inl h
        · exact Or.inl (h ▸ hx)
        · exact Or.inr h
    · simp only [if_neg hx, List.mem_append, List.mem_singleton, List.mem_cons]
      tauto

lemma mem_dedupFirst (l : List String) (a : String) : a ∈ dedupFirst l ↔ a ∈ l := by
  unfold dedupFirst
  rw [dedupFirst_go_mem]
  simp

lemma dedupFirst_go_nodup (l : List String) (acc : List String) (h : acc.Nodup) :
    (l.foldl (fun acc k => if k ∈ acc then acc else acc ++ [k]) acc).Nodup := by
  induction l generalizing acc with
  | nil => exact h
  | cons x xs ih =>
    simp only [List.foldl_cons]
    by_cases hx : x ∈ acc
    · rw [if_pos hx]; exact ih acc h
    · rw [if_neg hx]
      exact ih _ (by simp [List.nodup_append, h, hx])

lemma nodup_dedupFirst (l : List String) : (dedupFirst l).Nodup :=
  dedupFirst_go_nodup l [] List.nodup_nil

lemma dedupFirst_append_singleton (l : List String) (x : String) :
    dedupFirst (l ++ [x]) = if x ∈ l then dedupFirst l else dedupFirst l ++ [x] := by
  unfold dedupFirst
  rw [List.foldl_append]
  simp only [List.foldl_cons, List.foldl_nil]
  by_cases hx : x ∈ l
  · rw [if_pos hx, if_pos (by rw [dedupFirst_go_mem]; simp [hx])]
  · rw [if_neg hx, if_neg (by rw [dedupFirst_go_mem]; simp [hx])]

/-! ### The canonical form of the grouping fold -/

section DictFoldLemmas

variable {α β : Type}
variable (keyOf : β → String) (key : α → String) (bump : β → α → β) (init : String → β)

lemma keyOf_foldl_bump (hKeyBump : ∀ b a, keyOf (bump b a) = keyOf b) :
    ∀ (g : List α) (b : β), keyOf (g.foldl bump b) = keyOf b := by
  intro g
  induction g with
  | nil => intro b; rfl
  | cons a g ih => intro b; rw [List.foldl_cons, ih, hKeyBump]

lemma keyOf_dictSpec (hKeyBump : ∀ b a, keyOf (bump b a) = keyOf b)
    (hKeyInit : ∀ k, keyOf (init k) = k) (k : String) (l : List α) :
    keyOf (dictSpec key bump init k l) = k := by
  unfold dictSpec
  rw [keyOf_foldl_bump keyOf bump hKeyBump, hKeyInit]

lemma dictSpec_append (k : String) (l : List α) (a : α) :
    dictSpec key bump init k (l ++ [a]) =
      if key a = k then bump (dictSpec key bump init k l) a
      else dictSpec key bump init k l := by
  unfold dictSpec
  rw [List.filter_append]
  by_cases h : key a = k
  · simp [h]
  · simp [h]

lemma dictSpec_of_not_mem (k : String) (l : List α) (h : k ∉ l.map key) :
    dictSpec key bump init k l = init k := by
  unfold dictSpec
  have : l.filter (fun a => key a == k) = [] := by
    rw [List.filter_eq_nil_iff]
    intro a ha hk
    exact h (List.mem_map.mpr ⟨a, ha, by simpa using hk⟩)
  rw [this, List.foldl_nil]

lemma dictUpsert_map_mem (hKeyBump : ∀ b a, keyOf (bump b a) = keyOf b)
    (hKeyInit : ∀ k, keyOf (init k) = k) (a : α) (l : List α) (keys : List String)
    (hmem : key a ∈ keys) (hnd : keys.Nodup) :
    dictUpsert keyOf key bump init a (keys.map fun k => dictSpec key bump init k l) =
      keys.map fun k => dictSpec key bump init k (l ++ [a]) := by
  induction keys with
  | nil => cases hmem
  | cons k ks ih =>
    simp only [List.map_cons, dictUpsert]
    rw [keyOf_dictSpec keyOf key bump init hKeyBump hKeyInit]
    by_cases hk : k = key a
    · rw [if_pos hk]
      have hhead : bump (dictSpec key bump init k l) a = dictSpec key bump init k (l ++ [a]) := by
        rw [dictSpec_append, if_pos hk.symm]
      have htail : (ks.map fun k => dictSpec key bump init k l) =
          ks.map fun k => dictSpec key bump init k (l ++ [a]) := by
        apply List.map_congr_left
        intro k2 hk2
        have hk2ne : key a ≠ k2 := by
          intro hEq
          exact (List.nodup_cons.mp hnd).1 ((hk.trans hEq).symm ▸ hk2)
        rw [dictSpec_append, if_neg hk2ne]
      rw [hhead, htail]
    · rw [if_neg hk]
      have hmem2 : key a ∈ ks := by
        rcases List.mem_cons.mp hmem with h | h
        · exact absurd h.symm hk
        · exact h
      rw [ih hmem2 (List.nodup_cons.mp hnd).2]
      rw [dictSpec_append, if_neg (fun h => hk h.symm)]

lemma dictUpsert_map_not_mem (hKeyBump : ∀ b a, keyOf (bump b a) = keyOf b)
    (hKeyInit : ∀ k, keyOf (init k) = k) (a : α) (l : List α) (keys : List String)
    (hmem : key a ∉ keys) (hl : key a ∉ l.map key) :
    dictUpsert keyOf key bump init a (keys.map fun k => dictSpec key bump init k l) =
      (keys.map fun k => dictSpec key bump init k (l ++ [a]))
        ++ [dictSpec key bump init (key a) (l ++ [a])] := by
  induction keys with
  | nil =>
    simp only [List.map_nil, List.nil_append, dictUpsert]
    rw [dictSpec_append, if_pos rfl, dictSpec_of_not_mem key bump init _ _ hl]
  | cons k ks ih =>
    have hk : k ≠ key a := fun h => hmem (h ▸ List.mem_cons_self k ks)
    simp only [List.map_cons, dictUpsert]
    rw [keyOf_dictSpec keyOf key bump init hKeyBump hKeyInit, if_neg hk]
    have hmem2 : key a ∉ ks := fun h => hmem (List.mem_cons_of_mem k h)
    rw [ih hmem2]
    have hhead : dictSpec key bump init k (l ++ [a]) = dictSpec key bump init k l := by
      rw [dictSpec_append, if_neg (fun h => hk h.symm)]
    rw [hhead, List.cons_append]

lemma dictFold_eq (hKeyBump : ∀ b a, keyOf (bump b a) = keyOf b)
    (hKeyInit : ∀ k, keyOf (init k) = k) (l : List α) :
    dictFold keyOf key bump init l =
      (dedupFirst (l.map key)).map fun k => dictSpec key bump init k l := by
  induction l using List.reverseRecOn with
  | nil => rfl
  | append_singleton l a ih =>
    unfold dictFold at ih ⊢
    rw [List.foldl_append, List.foldl_cons, List.foldl_nil, ih]
    rw [List.map_append, List.map_singleton, dedupFirst_append_singleton]
    by_cases hmem : key a ∈ l.map key
    · rw [if_pos hmem]
      exact dictUpsert_map_mem keyOf key bump init hKeyBump hKeyInit a l _
        ((mem_dedupFirst _ _).mpr hmem) (nodup_dedupFirst _)
    · rw [if_neg hmem, List.map_append, List.map_singleton]
      exact dictUpsert_map_not_mem keyOf key bump init hKeyBump hKeyInit a l _
        (fun h => hmem ((mem_dedupFirst _ _).mp h)) hmem

lemma foldl_bump_add {M : Type} [AddCommMonoid M] (f : β → M) (c : α → M)
    (hf : ∀ b a, f (bump b a) = f b + c a) :
    ∀ (g : List α) (b : β), f (g.foldl bump b) = f b + (g.map c).sum := by
  intro g
  induction g with
  | nil => intro b; simp
  | cons a g ih =>
    intro b
    rw [List.foldl_cons, ih, hf, List.map_cons, List.sum_cons, add_assoc]

lemma foldl_bump_finset (f : β → Finset String) (h : α → String)
    (hf : ∀ b a, f (bump b a) = insert (h a) (f b)) :
    ∀ (g : List α) (b : β), f (g.foldl bump b) = f b ∪ (g.map h).toFinset := by
  intro g
  induction g with
  | nil => intro b; simp
  | cons a g ih =>
    intro b
    rw [List.foldl_cons, ih, hf, List.map_cons, List.toFinset_cons,
      Finset.insert_union, Finset.union_insert]

lemma dictSpec_perm (hcomm : ∀ b a₁ a₂, bump (bump b a₁) a₂ = bump (bump b a₂) a₁)
    {l₁ l₂ : List α} (p : l₁.Perm l₂) (k : String) :
    dictSpec key bump init k l₁ = dictSpec key bump init k l₂ := by
  unfold dictSpec
  haveI : RightCommutative bump := ⟨hcomm⟩
  exact (p.filter _).foldl_eq _

lemma sum_map_dictUpsert {M : Type} [AddCommMonoid M] (f : β → M) (c : α → M)
    (hbump : ∀ b a, f (bump b a) = f b + c a) (hinit : ∀ k, f (init k) = 0)
    (a : α) (acc : List β) :
    ((dictUpsert keyOf key bump init a acc).map f).sum = (acc.map f).sum + c a := by
  induction acc with
  | nil => simp [dictUpsert, hbump, hinit]
  | cons b rest ih =>
    simp only [dictUpsert]
    by_cases h : keyOf b = key a
    · rw [if_pos h, List.map_cons, List.sum_cons, List.map_cons, List.sum_cons, hbump,
        add_right_comm]
    · rw [if_neg h, List.map_cons, List.sum_cons, List.map_cons, List.sum_cons, ih, add_assoc]

lemma sum_map_dictFold {M : Type} [AddCommMonoid M] (f : β → M) (c : α → M)
    (hbump : ∀ b a, f (bump b a) = f b + c a) (hinit : ∀ k, f (init k) = 0)
    (l : List α) :
    ((dictFold keyOf key bump init l).map f).sum = (l.map c).sum := by
  have hgen : ∀ (ls : List α) (acc : List β),
      ((ls.foldl (fun acc a => dictUpsert keyOf key bump init a acc) acc).map f).sum =
        (acc.map f).sum + (ls.map c).sum := by
    intro ls
    induction ls with
    | nil => intro acc; simp
    | cons a ls ih =>
      intro acc
      rw [List.foldl_cons, ih, sum_map_dictUpsert keyOf key bump init f c hbump hinit,
        List.map_cons, List.sum_cons, add_right_comm, add_assoc, add_comm (c a)]
  unfold dictFold
  rw [hgen l []]
  simp

end DictFoldLemmas

/-! ### Lemmas about the stable descending sort -/

lemma insertByRevenueDesc_perm (a : ProductRow) (l : List ProductRow) :
    (insertByRevenueDesc a l).Perm (a :: l) := by
  induction l with
  | nil => exact List.Perm.refl _
  | cons b rest ih =>
    simp only [insertByRevenueDesc]
    by_cases h : b.total_revenue ≤ a.total_revenue
    · rw [if_pos h]
    · rw [if_neg h]
      exact (ih.cons b).trans (List.Perm.swap a b rest)

lemma sortByRevenueDesc_perm (l : List ProductRow) : (sortByRevenueDesc l).Perm l := by
  induction l with
  | nil => exact List.Perm.refl _
  | cons a rest ih =>
    simp only [sortByRevenueDesc]
    exact (insertByRevenueDesc_perm a _).trans (ih.cons a)

lemma mem_insertByRevenueDesc {x a : ProductRow} {l : List ProductRow} :
    x ∈ insertByRevenueDesc a l ↔ x = a ∨ x ∈ l := by
  rw [(insertByRevenueDesc_perm a l).mem_iff, List.mem_cons]

lemma pairwise_insertByRevenueDesc (a : ProductRow) (l : List ProductRow)
    (h : l.Pairwise fun x y => y.total_revenue ≤ x.total_revenue) :
    (insertByRevenueDesc a l).Pairwise fun x y => y.total_revenue ≤ x.total_revenue := by
  induction l with
  | nil => simp [insertByRevenueDesc]
  | cons b rest ih =>
    rcases List.pairwise_cons.mp h with ⟨hb, hrest⟩
    simp only [insertByRevenueDesc]
    by_cases hba : b.total_revenue ≤ a.total_revenue
    · rw [if_pos hba]
      refine List.pairwise_cons.mpr ⟨?_, h⟩
      intro y hy
      rcases List.mem_cons.mp hy with rfl | hy2
      · exact hba
      · exact le_trans (hb y hy2) hba
    · rw [if_neg hba]
      refine List.pairwise_cons.mpr ⟨?_, ih hrest⟩
      intro y hy
      rcases mem_insertByRevenueDesc.mp hy with rfl | hy2
      · exact le_of_lt (lt_of_not_le hba)
      · exact hb y hy2

lemma pairwise_sortByRevenueDesc (l : List ProductRow) :
    (sortByRevenueDesc l).Pairwise fun x y => y.total_revenue ≤ x.total_revenue := by
  induction l with
  | nil => simp [sortByRevenueDesc]
  | cons a rest ih =>
    simp only [sortByRevenueDesc]
    exact pairwise_insertByRevenueDesc a _ ih

lemma filter_insertByRevenueDesc (a : ProductRow) (l : List ProductRow) (v : Rat) :
    (insertByRevenueDesc a l).filter (fun x => x.total_revenue == v) =
      if a.total_revenue = v
        then a :: l.filter (fun x => x.total_revenue == v)
        else l.filter (fun x => x.total_revenue == v) := by
  induction l with
  | nil =>
    simp only [insertByRevenueDesc]
    by_cases h : a.total_revenue = v <;> simp [List.filter_cons, h]
  | cons b rest ih =>
    simp only [insertByRevenueDesc]
    by_cases hba : b.total_revenue ≤ a.total_revenue
    · rw [if_pos hba]
      by_cases h : a.total_revenue = v <;> simp [List.filter_cons, h]
    · rw [if_neg hba]
      by_cases h : a.total_revenue = v
      · have hbv : ¬(b.total_revenue = v) := by
          intro hb
          exact hba (le_of_eq (hb.trans h.symm))
        simp [List.filter_cons, h, hbv, ih]
      · by_cases hb : b.total_revenue = v <;> simp [List.filter_cons, h, hb, ih]

lemma sum_map_one {γ : Type} (g : List γ) : (g.map fun _ => (1 : Nat)).sum = g.length := by
  induction g with
  | nil => rfl
  | cons a g ih => simp [ih, Nat.add_comm]

/-! ### Lemmas about the cleaner -/

lemma clean_foldl_closed (l : List RawRecord) (acc : List CleanRecord × Nat) :
    l.foldl
        (fun acc r =>
          match cleanOne r with
          | Option.some c => (acc.1 ++ [c], acc.2)
          | Option.none => (acc.1, acc.2 + 1)) acc =
      (acc.1 ++ l.filterMap cleanOne, acc.2 + l.countP fun r => (cleanOne r).isNone) := by
  induction l generalizing acc with
  | nil => simp
  | cons r rest ih =>
    rw [List.foldl_cons]
    cases h : cleanOne r with
    | some c =>
      simp only [h]
      rw [ih]
      simp [List.filterMap_cons, h, List.countP_cons]
    | none =>
      simp only [h]
      rw [ih]
      simp only [List.filterMap_cons, h, List.countP_cons, Option.isNone_none, Prod.mk.injEq,
        if_true]
      refine ⟨trivial, ?_⟩
      omega

lemma clean_sales_data_eq (l : List RawRecord) :
    clean_sales_data l = (l.filterMap cleanOne, l.countP fun r => (cleanOne r).isNone) := by
  unfold clean_sales_data
  rw [clean_foldl_closed]
  simp

lemma cleanOne_sound {r : RawRecord} {c : CleanRecord} (h : cleanOne r = Option.some c) :
    0 < c.sales_amount ∧ 0 < c.quantity ∧ (parseDate c.sale_date).isSome := by
  unfold cleanOne at h
  iterate 8
    all_goals try split at h
    all_goals try exact Option.noConfusion h
  all_goals cases h
  all_goals refine ⟨lt_of_not_le (by assumption), ?_, by simp_all⟩
  all_goals first
    | exact Int.one_pos
    | exact lt_of_not_le (by assumption)

/-! ### Closed forms of the two aggregators -/

lemma regionSpec_region (k : String) (l : List CleanRecord) :
    (dictSpec (fun r : CleanRecord => r.region) bumpRegion RegionAcc.init k l).region = k :=
  keyOf_dictSpec (fun a : RegionAcc => a.region) (fun r : CleanRecord => r.region) bumpRegion
    RegionAcc.init (fun _ _ => rfl) (fun _ => rfl) k l

lemma regionSpec_total_sales (k : String) (l : List CleanRecord) :
    (dictSpec (fun r : CleanRecord => r.region) bumpRegion RegionAcc.init k l).total_sales =
      (regionGroup k l).length := by
  unfold dictSpec
  rw [foldl_bump_add bumpRegion (fun a : RegionAcc => a.total_sales) (fun _ : CleanRecord => (1 : Nat)) (fun _ _ => rfl)]
  simp [RegionAcc.init, sum_map_one, regionGroup]

lemma regionSpec_total_revenue (k : String) (l : List CleanRecord) :
    (dictSpec (fun r : CleanRecord => r.region) bumpRegion RegionAcc.init k l).total_revenue =
      ((regionGroup k l).map fun r => r.sales_amount).sum := by
  unfold dictSpec
  rw [foldl_bump_add bumpRegion (fun a : RegionAcc => a.total_revenue)
    (fun r : CleanRecord => r.sales_amount) (fun _ _ => rfl)]
  simp [RegionAcc.init, regionGroup]

lemma regionSpec_total_quantity (k : String) (l : List CleanRecord) :
    (dictSpec (fun r : CleanRecord => r.region) bumpRegion RegionAcc.init k l).total_quantity =
      ((regionGroup k l).map fun r => r.quantity).sum := by
  unfold dictSpec
  rw [foldl_bump_add bumpRegion (fun a : RegionAcc => a.total_quantity)
    (fun r : CleanRecord => r.quantity) (fun _ _ => rfl)]
  simp [RegionAcc.init, regionGroup]

lemma regionSpec_product_count (k : String) (l : List CleanRecord) :
    (dictSpec (fun r : CleanRecord => r.region) bumpRegion RegionAcc.init k l).product_count =
      (regionGroup k l).length := by
  unfold dictSpec
  rw [foldl_bump_add bumpRegion (fun a : RegionAcc => a.product_count) (fun _ : CleanRecord => (1 : Nat)) (fun _ _ => rfl)]
  simp [RegionAcc.init, sum_map_one, regionGroup]

lemma productSpec_product_name (k : String) (l : List CleanRecord) :
    (dictSpec (fun r : CleanRecord => r.product_name) bumpProduct ProductAcc.init k
        l).product_name = k :=
  keyOf_dictSpec (fun a : ProductAcc => a.product_name) (fun r : CleanRecord => r.product_name)
    bumpProduct ProductAcc.init (fun _ _ => rfl) (fun _ => rfl) k l

lemma productSpec_total_sales (k : String) (l : List CleanRecord) :
    (dictSpec (fun r : CleanRecord => r.product_name) bumpProduct ProductAcc.init k
        l).total_sales = (productGroup k l).length := by
  unfold dictSpec
  rw [foldl_bump_add bumpProduct (fun a : ProductAcc => a.total_sales) (fun _ : CleanRecord => (1 : Nat)) (fun _ _ => rfl)]
  simp [ProductAcc.init, sum_map_one, productGroup]

lemma productSpec_total_revenue (k : String) (l : List CleanRecord) :
    (dictSpec (fun r : CleanRecord => r.product_name) bumpProduct ProductAcc.init k
        l).total_revenue = ((productGroup k l).map fun r => r.sales_amount).sum := by
  unfold dictSpec
  rw [foldl_bump_add bumpProduct (fun a : ProductAcc => a.total_revenue)
    (fun r : CleanRecord => r.sales_amount) (fun _ _ => rfl)]
  simp [ProductAcc.init, productGroup]

lemma productSpec_total_quantity (k : String) (l : List CleanRecord) :
    (dictSpec (fun r : CleanRecord => r.product_name) bumpProduct ProductAcc.init k
        l).total_quantity = ((productGroup k l).map fun r => r.quantity).sum := by
  unfold dictSpec
  rw [foldl_bump_add bumpProduct (fun a : ProductAcc => a.total_quantity)
    (fun r : CleanRecord => r.quantity) (fun _ _ => rfl)]
  simp [ProductAcc.init, productGroup]

lemma productSpec_regions (k : String) (l : List CleanRecord) :
    (dictSpec (fun r : CleanRecord => r.product_name) bumpProduct ProductAcc.init k
        l).regions = ((productGroup k l).map fun r => r.region).toFinset := by
  unfold dictSpec
  rw [foldl_bump_finset bumpProduct (fun a : ProductAcc => a.regions) (fun r : CleanRecord => r.region) (fun _ _ => rfl)]
  simp [ProductAcc.init, productGroup]

lemma aggregate_region_eq (l : List CleanRecord) :
    aggregate_sales_by_region l =
      (dedupFirst (l.map fun r => r.region)).map fun k =>
        finalizeRegion (dictSpec (fun r : CleanRecord => r.region) bumpRegion RegionAcc.init
          k l) := by
  unfold aggregate_sales_by_region
  rw [dictFold_eq (fun a : RegionAcc => a.region) (fun r : CleanRecord => r.region) bumpRegion
    RegionAcc.init (fun _ _ => rfl) (fun _ => rfl), List.map_map]
  rfl

lemma productRowsUnsorted_eq (l : List CleanRecord) :
    productRowsUnsorted l =
      (dedupFirst (l.map fun r => r.product_name)).map fun k =>
        finalizeProduct (dictSpec (fun r : CleanRecord => r.product_name) bumpProduct
          ProductAcc.init k l) := by
  unfold productRowsUnsorted
  rw [dictFold_eq (fun a : ProductAcc => a.product_name) (fun r : CleanRecord => r.product_name)
    bumpProduct ProductAcc.init (fun _ _ => rfl) (fun _ => rfl), List.map_map]
  rfl

lemma bumpRegion_comm (b : RegionAcc) (r₁ r₂ : CleanRecord) :
    bumpRegion (bumpRegion b r₁) r₂ = bumpRegion (bumpRegion b r₂) r₁ := by
  simp only [bumpRegion]
  congr 1 <;> ring

lemma bumpProduct_comm (b : ProductAcc) (r₁ r₂ : CleanRecord) :
    bumpProduct (bumpProduct b r₁) r₂ = bumpProduct (bumpProduct b r₂) r₁ := by
  simp only [bumpProduct]
  congr 1
  · ring
  · ring
  · exact Finset.Insert.comm _ _ _

lemma filter_sortByRevenueDesc (l : List ProductRow) (v : Rat) :
    (sortByRevenueDesc l).filter (fun x => x.total_revenue == v) =
      l.filter (fun x => x.total_revenue == v) := by
  induction l with
  | nil => rfl
  | cons a rest ih =>
    simp only [sortByRevenueDesc]
    rw [filter_insertByRevenueDesc]
    by_cases h : a.total_revenue = v <;> simp [List.filter_cons, h, ih]

/-! ### The claims -/

/-- C1: counterexample to the claim.  Submitting the identical enriched row to
load_sales_data twice, starting from the empty storage state, leaves two rows in
sales_data: the stored row count increases by 2 over the two calls, not by at
most 1, because create_tables places no unique constraint on sales_data and the
conflict-skipping insert therefore never skips. -/
theorem claim_C1_counterexample :
    (load_sales_data (load_sales_data emptyDB [sampleEnriched]).1
        [sampleEnriched]).1.sales_data.length = 2 ∧
    emptyDB.sales_data.length = 0 ∧ ¬((2 : Nat) - 0 ≤ 1) :=
  ⟨rfl, rfl, by decide⟩

/-- C1 amended: for every storage state and every enriched row, calling
load_sales_data twice with that same row increases the number of rows stored in
sales_data by exactly 2: sales_data has no unique constraint, so the ON CONFLICT
DO NOTHING insert never skips, and each call appends the row and returns the
count of submitted records. -/
theorem claim_C1_amended (s : DBState) (r : EnrichedRecord) :
    (load_sales_data (load_sales_data s [r]).1 [r]).1.sales_data.length =
      s.sales_data.length + 2 ∧
    (load_sales_data s [r]).2 = 1 := by
  refine ⟨?_, rfl⟩
  simp [load_sales_data, insertSkipConflict, sales_data_unique_keys]

/-- C5: calling load_product_aggregates with confirm_delete false returns the
configuration ValueError and leaves the whole storage state unchanged (no delete
and no insert); with confirm_delete true (the Python default) all existing rows
of product_aggregates are deleted before the new rows are inserted, so the
resulting table is the insert of the data into an empty table, independent of
the prior contents, and the other tables are untouched. -/
theorem claim_C5 (s : DBState) (data : List ProductRow) :
    load_product_aggregates s data false =
      (s, Except.error "Delete operation requires explicit confirmation.") ∧
    (load_product_aggregates s data true).1.product_aggregates =
      (insertRows product_aggregates_unique_keys [] data).1 ∧
    (load_product_aggregates s data true).1.sales_data = s.sales_data ∧
    (load_product_aggregates s data true).1.region_aggregates = s.region_aggregates :=
  ⟨rfl, rfl, rfl, rfl⟩

/-- C6: validate_data succeeds exactly when none of the four invariants is
violated, raises the error of the first violated check in the order
sales_records, total_revenue, regions, products, fails the all-zero summary on
the first check, and passes the summary with 5 records, revenue 120.5,
2 regions and 3 products. -/
theorem claim_C6 (s : PipelineSummary) :
    ((validate_data s).isOk = true ↔
      ¬(s.sales_records = 0 ∨ s.total_revenue ≤ 0 ∨ s.regions = 0 ∨ s.products = 0)) ∧
    (s.sales_records = 0 →
      validate_data s = Except.error "No sales records found in database") ∧
    (s.sales_records ≠ 0 → s.total_revenue ≤ 0 →
      validate_data s = Except.error "Total revenue should be positive") ∧
    (s.sales_records ≠ 0 → ¬s.total_revenue ≤ 0 → s.regions = 0 →
      validate_data s = Except.error "No regional data found") ∧
    (s.sales_records ≠ 0 → ¬s.total_revenue ≤ 0 → s.regions ≠ 0 → s.products = 0 →
      validate_data s = Except.error "No product data found") ∧
    validate_data ⟨0, 0, 0, 0⟩ = Except.error "No sales records found in database" ∧
    validate_data ⟨5, 120.5, 2, 3⟩ = Except.ok "Data validation successful" := by
  refine ⟨?_, ?_, ?_, ?_, ?_, by simp [validate_data], by norm_num [validate_data]⟩
  · unfold validate_data
    split_ifs with h1 h2 h3 h4 <;> simp_all [Except.isOk, Except.toBool]
  · intro h1
    unfold validate_data
    rw [if_pos h1]
  · intro h1 h2
    unfold validate_data
    rw [if_neg h1, if_pos h2]
  · intro h1 h2 h3
    unfold validate_data
    rw [if_neg h1, if_neg h2, if_pos h3]
  · intro h1 h2 h3 h4
    unfold validate_data
    rw [if_neg h1, if_neg h2, if_neg h3, if_pos h4]

/-- C2: counterexample to the claim.  badQuantityRecord carries the three
mandatory fields, a sales_amount that coerces to the positive float 100.0 and a
sale_date that parses under the fixed format, yet clean_sales_data rejects it
(empty output, one invalid record): int() on its quantity value raises, the
per-record handler catches the error and drops the record, so a record can be
rejected because of its quantity value. -/
theorem claim_C2_counterexample :
    badQuantityRecord.product_name.isSome = true ∧
    badQuantityRecord.sales_amount.isSome = true ∧
    badQuantityRecord.sale_date.isSome = true ∧
    pyFloat (Value.int 100) = Option.some ((100 : Int) : Rat) ∧
    (0 : Rat) < ((100 : Int) : Rat) ∧
    (parseDate "2024-03-17").isSome = true ∧
    (clean_sales_data [badQuantityRecord]).1 = [] ∧
    (clean_sales_data [badQuantityRecord]).2 = 1 :=
  ⟨rfl, rfl, rfl, rfl, by norm_num, by decide, by decide, by decide⟩

/-- C2 amended: for every raw record with the three mandatory fields, a
sales_amount coercing to a positive float, a sale_date that parses under the
fixed format, and a quantity value that itself coerces to an integer (int()
does not raise on it), clean_sales_data never rejects the record because of its
quantity: a coerced quantity of at most 0 is clamped to 1 and the record is
kept, and a positive coerced quantity is kept as is. -/
theorem claim_C2_amended (r : RawRecord) (pv av : Value) (ds : String) (amt : Rat) (q : Int)
    (hpn : r.product_name = Option.some pv)
    (hsa : r.sales_amount = Option.some av)
    (hsd : r.sale_date = Option.some (Value.str ds))
    (hamt : pyFloat av = Option.some amt) (hpos : 0 < amt)
    (hq : pyInt (r.quantity.getD (Value.int 1)) = Option.some q)
    (hparse : (parseDate ds).isSome = true) :
    ∃ c, cleanOne r = Option.some c ∧ c.quantity = (if q ≤ 0 then 1 else q) ∧
      0 < c.quantity := by
  obtain ⟨d, hd⟩ := Option.isSome_iff_exists.mp hparse
  unfold cleanOne
  rw [hpn, hsa, hsd]
  dsimp only
  rw [hamt, hq]
  dsimp only
  rw [if_neg (not_le.mpr hpos), hd]
  dsimp only
  refine ⟨_, rfl, rfl, ?_⟩
  by_cases hq0 : q ≤ 0
  · rw [if_pos hq0]
    exact Int.one_pos
  · rw [if_neg hq0]
    exact lt_of_not_le hq0

/-- Witness for C2 amended: the record with quantity 0 is kept with its
quantity clamped to 1. -/
theorem claim_C2_witness :
    ∃ c, cleanOne zeroQuantityRecord = Option.some c ∧
      c.quantity = (if (0 : Int) ≤ 0 then 1 else 0) ∧ 0 < c.quantity :=
  claim_C2_amended zeroQuantityRecord (Value.str "Widget") (Value.int 100)
    "2024-03-17" ((100 : Int) : Rat) 0 rfl rfl rfl rfl (by norm_num) rfl (by decide)

/-- C3: aggregate_sales_by_region returns exactly one row per distinct region
(its keys are the distinct regions in first-encounter order); in each row
total_sales, total_revenue, total_quantity and product_count are the count, the
amount sum, the quantity sum and again the record count of the group (not a
distinct-product count), the averages are total_revenue/total_sales and
total_quantity/total_sales with a positive total_sales, the division guard
returns 0 on a zero-sales accumulator, and the two-record North example yields
the single row with total_sales 2, total_revenue 150, total_quantity 3,
product_count 2, avg_sale_amount 75 and avg_quantity 1.5. -/
theorem claim_C3 (l : List CleanRecord) :
    ((aggregate_sales_by_region l).map fun row => row.region) =
        dedupFirst (l.map fun r => r.region) ∧
    (∀ row ∈ aggregate_sales_by_region l,
        row.total_sales = (regionGroup row.region l).length ∧
        row.total_revenue = ((regionGroup row.region l).map fun r => r.sales_amount).sum ∧
        row.total_quantity = ((regionGroup row.region l).map fun r => r.quantity).sum ∧
        row.product_count = (regionGroup row.region l).length ∧
        0 < row.total_sales ∧
        row.avg_sale_amount = row.total_revenue / (row.total_sales : Rat) ∧
        row.avg_quantity = (row.total_quantity : Rat) / (row.total_sales : Rat)) ∧
    (∀ a : RegionAcc, a.total_sales = 0 →
        (finalizeRegion a).avg_sale_amount = 0 ∧ (finalizeRegion a).avg_quantity = 0) ∧
    aggregate_sales_by_region northExample =
      [{ region := "North", total_sales := 2, total_revenue := 150, total_quantity := 3,
         product_count := 2, avg_sale_amount := 75, avg_quantity := 3 / 2 }] := by
  refine ⟨?_, ?_, ?_, ?_⟩
  · rw [aggregate_region_eq, List.map_map]
    have hcomp : ((fun row : RegionRow => row.region) ∘ fun k =>
        finalizeRegion (dictSpec (fun r : CleanRecord => r.region) bumpRegion RegionAcc.init
          k l)) = fun k => k := by
      funext k
      exact regionSpec_region k l
    rw [hcomp]
    exact List.map_id _
  · intro row hrow
    rw [aggregate_region_eq] at hrow
    obtain ⟨k, hk, rfl⟩ := List.mem_map.mp hrow
    have hreg : (finalizeRegion (dictSpec (fun r : CleanRecord => r.region) bumpRegion
        RegionAcc.init k l)).region = k := regionSpec_region k l
    rw [hreg]
    have hk2 : k ∈ l.map fun r => r.region := (mem_dedupFirst _ _).mp hk
    obtain ⟨r0, hr0, hr0k⟩ := List.mem_map.mp hk2
    have hr0g : r0 ∈ regionGroup k l :=
      List.mem_filter.mpr ⟨hr0, by simp [hr0k]⟩
    have hpos : 0 < (regionGroup k l).length := List.length_pos_of_mem hr0g
    have hts : 0 < (dictSpec (fun r : CleanRecord => r.region) bumpRegion
        RegionAcc.init k l).total_sales := by
      rw [regionSpec_total_sales]
      exact hpos
    refine ⟨regionSpec_total_sales k l, regionSpec_total_revenue k l,
      regionSpec_total_quantity k l, regionSpec_product_count k l, ?_, ?_, ?_⟩
    · show 0 < (dictSpec (fun r : CleanRecord => r.region) bumpRegion
        RegionAcc.init k l).total_sales
      exact hts
    · simp [finalizeRegion, hts]
    · simp [finalizeRegion, hts]
  · intro a ha
    simp [finalizeRegion, ha]
  · norm_num [aggregate_sales_by_region, dictFold, dictUpsert, finalizeRegion, bumpRegion,
      RegionAcc.init, northExample, List.foldl, RegionRow.mk.injEq]

/-- C4: aggregate_sales_by_product returns one row per distinct product name
(its keys are a permutation of the distinct product names), each row's
region_count is the cardinality of the set of distinct regions observed for
that product (not the occurrence count), the returned list is sorted by
total_revenue in descending order, and rows of equal revenue keep the
first-encounter order of the pre-sort row list (the sort is stable: filtering
the output at any revenue value gives exactly the pre-sort sublist). -/
theorem claim_C4 (l : List CleanRecord) :
    ((aggregate_sales_by_product l).map fun row => row.product_name).Perm
        (dedupFirst (l.map fun r => r.product_name)) ∧
    (∀ row ∈ aggregate_sales_by_product l,
        row.region_count =
          (((productGroup row.product_name l).map fun r => r.region).toFinset).card) ∧
    ((aggregate_sales_by_product l).Pairwise fun x y =>
        y.total_revenue ≤ x.total_revenue) ∧
    (∀ v : Rat,
        (aggregate_sales_by_product l).filter (fun x => x.total_revenue == v) =
          (productRowsUnsorted l).filter fun x => x.total_revenue == v) := by
  have hnames : (productRowsUnsorted l).map (fun row => row.product_name) =
      dedupFirst (l.map fun r => r.product_name) := by
    rw [productRowsUnsorted_eq, List.map_map]
    have hcomp : ((fun row : ProductRow => row.product_name) ∘ fun k =>
        finalizeProduct (dictSpec (fun r : CleanRecord => r.product_name) bumpProduct
          ProductAcc.init k l)) = fun k => k := by
      funext k
      exact productSpec_product_name k l
    rw [hcomp]
    exact List.map_id _
  refine ⟨?_, ?_, ?_, ?_⟩
  · rw [← hnames]
    exact (sortByRevenueDesc_perm (productRowsUnsorted l)).map _
  · intro row hrow
    have hrow2 : row ∈ productRowsUnsorted l :=
      (sortByRevenueDesc_perm (productRowsUnsorted l)).mem_iff.mp hrow
    rw [productRowsUnsorted_eq] at hrow2
    obtain ⟨k, hk, rfl⟩ := List.mem_map.mp hrow2
    have hname : (finalizeProduct (dictSpec (fun r : CleanRecord => r.product_name)
        bumpProduct ProductAcc.init k l)).product_name = k := productSpec_product_name k l
    rw [hname]
    show (dictSpec (fun r : CleanRecord => r.product_name) bumpProduct
        ProductAcc.init k l).regions.card = _
    rw [productSpec_regions]
  · exact pairwise_sortByRevenueDesc (productRowsUnsorted l)
  · intro v
    exact filter_sortByRevenueDesc (productRowsUnsorted l) v

lemma length_filterMap_cleanOne (l : List RawRecord) :
    (l.filterMap cleanOne).length + (l.countP fun r => (cleanOne r).isNone) = l.length := by
  induction l with
  | nil => rfl
  | cons r rest ih =>
    cases h : cleanOne r <;> simp [List.filterMap_cons, h, List.countP_cons] <;> omega

/-- C7: every record in the list returned by clean_sales_data has a positive
sales_amount, a positive quantity and a sale_date that parses under the fixed
format; invalid records are dropped and counted rather than raising (kept plus
counted equals the input length), and an input whose records are all invalid
yields the empty list with the full invalid count, not an error. -/
theorem claim_C7 (input : List RawRecord) :
    (∀ c ∈ (clean_sales_data input).1,
        0 < c.sales_amount ∧ 0 < c.quantity ∧ (parseDate c.sale_date).isSome) ∧
    (clean_sales_data input).1.length + (clean_sales_data input).2 = input.length ∧
    ((∀ r ∈ input, cleanOne r = Option.none) →
      clean_sales_data input = ([], input.length)) := by
  rw [clean_sales_data_eq]
  refine ⟨?_, ?_, ?_⟩
  · intro c hc
    obtain ⟨r, _, hcr⟩ := List.mem_filterMap.mp hc
    exact cleanOne_sound hcr
  · exact length_filterMap_cleanOne input
  · intro hall
    have h1 : input.filterMap cleanOne = [] :=
      List.filterMap_eq_nil_iff.mpr hall
    have h2 : (input.countP fun r => (cleanOne r).isNone) = input.length := by
      rw [List.countP_eq_length]
      intro r hr
      simp [hall r hr]
    rw [h1, h2]

/-- C8: for every clean record whose sale_date parses to the date d,
add_calculated_fields sets total_value to sales_amount * quantity, sale_month to
the zero-padded YYYY-MM rendering of d, sale_year to the year of d as an
integer, and sale_quarter to the letter Q followed by ((month - 1) / 3) + 1. -/
theorem claim_C8 (r : CleanRecord) (d : Date)
    (h : parseDate r.sale_date = Option.some d) :
    (enrichOne r).total_value = r.sales_amount * (r.quantity : Rat) ∧
    (enrichOne r).sale_month =
      Option.some (padZeros 4 (toString d.year) ++ "-" ++ padZeros 2 (toString d.month)) ∧
    (enrichOne r).sale_year = Option.some (d.year : Int) ∧
    (enrichOne r).sale_quarter =
      Option.some ("Q" ++ toString ((d.month - 1) / 3 + 1)) := by
  unfold enrichOne
  rw [h]
  exact ⟨rfl, rfl, rfl, rfl⟩

/-- Witness for C8 at the record with sale_date 2024-03-17: total_value is the
amount times the quantity, sale_month is 2024-03, sale_year is 2024 and
sale_quarter is Q1. -/
theorem claim_C8_witness :
    (enrichOne marchRecord).total_value =
      marchRecord.sales_amount * (marchRecord.quantity : Rat) ∧
    (enrichOne marchRecord).sale_month = Option.some "2024-03" ∧
    (enrichOne marchRecord).sale_year = Option.some 2024 ∧
    (enrichOne marchRecord).sale_quarter = Option.some "Q1" := by
  have h := claim_C8 marchRecord ⟨2024, 3, 17⟩ (by decide)
  refine ⟨h.1, ?_, ?_, ?_⟩
  · rw [h.2.1]
    rfl
  · rw [h.2.2.1]
    rfl
  · rw [h.2.2.2]
    rfl

/-- C9: the two aggregations are order-independent: for any two inputs that are
permutations of each other, the region aggregate row lists are permutations of
each other (the row computed for each region key is identical, only the
first-encounter row order can differ) and likewise the product aggregate row
lists, whose final order is fixed by the descending-revenue sort up to its
first-encounter tie-breaking. -/
theorem claim_C9 {l₁ l₂ : List CleanRecord} (p : l₁.Perm l₂) :
    (aggregate_sales_by_region l₁).Perm (aggregate_sales_by_region l₂) ∧
    (aggregate_sales_by_product l₁).Perm (aggregate_sales_by_product l₂) := by
  have hkeysR : (dedupFirst (l₁.map fun r => r.region)).Perm
      (dedupFirst (l₂.map fun r => r.region)) := by
    rw [List.perm_ext_iff_of_nodup (nodup_dedupFirst _) (nodup_dedupFirst _)]
    intro a
    rw [mem_dedupFirst, mem_dedupFirst]
    exact (p.map _).mem_iff
  have hkeysP : (dedupFirst (l₁.map fun r => r.product_name)).Perm
      (dedupFirst (l₂.map fun r => r.product_name)) := by
    rw [List.perm_ext_iff_of_nodup (nodup_dedupFirst _) (nodup_dedupFirst _)]
    intro a
    rw [mem_dedupFirst, mem_dedupFirst]
    exact (p.map _).mem_iff
  constructor
  · rw [aggregate_region_eq, aggregate_region_eq]
    have hspec : (fun k => finalizeRegion (dictSpec (fun r : CleanRecord => r.region)
        bumpRegion RegionAcc.init k l₁)) =
        fun k => finalizeRegion (dictSpec (fun r : CleanRecord => r.region)
          bumpRegion RegionAcc.init k l₂) := by
      funext k
      rw [dictSpec_perm (fun r : CleanRecord => r.region) bumpRegion RegionAcc.init
        bumpRegion_comm p k]
    rw [hspec]
    exact hkeysR.map _
  · unfold aggregate_sales_by_product
    have hrows : (productRowsUnsorted l₁).Perm (productRowsUnsorted l₂) := by
      rw [productRowsUnsorted_eq, productRowsUnsorted_eq]
      have hspec : (fun k => finalizeProduct (dictSpec
          (fun r : CleanRecord => r.product_name) bumpProduct ProductAcc.init k l₁)) =
          fun k => finalizeProduct (dictSpec (fun r : CleanRecord => r.product_name)
            bumpProduct ProductAcc.init k l₂) := by
        funext k
        rw [dictSpec_perm (fun r : CleanRecord => r.product_name) bumpProduct
          ProductAcc.init bumpProduct_comm p k]
      rw [hspec]
      exact hkeysP.map _
    exact ((sortByRevenueDesc_perm _).trans hrows).trans (sortByRevenueDesc_perm _).symm

/-- Witness for C9: reversing the two-record North example permutes the inputs,
and both aggregations of the reversed input are permutations of the
aggregations of the original. -/
theorem claim_C9_witness :
    (aggregate_sales_by_region northExample.reverse).Perm
      (aggregate_sales_by_region northExample) ∧
    (aggregate_sales_by_product northExample.reverse).Perm
      (aggregate_sales_by_product northExample) :=
  claim_C9 (List.reverse_perm northExample)

/-- C10: summing total_revenue over the region aggregate rows, or over the
product aggregate rows, gives exactly the sum of sales_amount over the input
records, and summing total_sales over either aggregate's rows gives the number
of input records. -/
theorem claim_C10 (l : List CleanRecord) :
    ((aggregate_sales_by_region l).map fun row => row.total_revenue).sum =
      (l.map fun r => r.sales_amount).sum ∧
    ((aggregate_sales_by_product l).map fun row => row.total_revenue).sum =
      (l.map fun r => r.sales_amount).sum ∧
    ((aggregate_sales_by_region l).map fun row => row.total_sales).sum = l.length ∧
    ((aggregate_sales_by_product l).map fun row => row.total_sales).sum = l.length := by
  have hProdRev : ((productRowsUnsorted l).map fun row => row.total_revenue).sum =
      (l.map fun r => r.sales_amount).sum := by
    unfold productRowsUnsorted
    rw [List.map_map]
    exact sum_map_dictFold (fun a : ProductAcc => a.product_name)
      (fun r : CleanRecord => r.product_name) bumpProduct ProductAcc.init
      ((fun row : ProductRow => row.total_revenue) ∘ finalizeProduct)
      (fun r : CleanRecord => r.sales_amount) (fun _ _ => rfl) (fun _ => rfl) l
  have hProdSal : ((productRowsUnsorted l).map fun row => row.total_sales).sum =
      l.length := by
    unfold productRowsUnsorted
    rw [List.map_map]
    rw [sum_map_dictFold (fun a : ProductAcc => a.product_name)
      (fun r : CleanRecord => r.product_name) bumpProduct ProductAcc.init
      ((fun row : ProductRow => row.total_sales) ∘ finalizeProduct)
      (fun _ : CleanRecord => (1 : Nat)) (fun _ _ => rfl) (fun _ => rfl) l]
    exact sum_map_one l
  refine ⟨?_, ?_, ?_, ?_⟩
  · unfold aggregate_sales_by_region
    rw [List.map_map]
    exact sum_map_dictFold (fun a : RegionAcc => a.region)
      (fun r : CleanRecord => r.region) bumpRegion RegionAcc.init
      ((fun row : RegionRow => row.total_revenue) ∘ finalizeRegion)
      (fun r : CleanRecord => r.sales_amount) (fun _ _ => rfl) (fun _ => rfl) l
  · rw [← hProdRev]
    exact ((sortByRevenueDesc_perm (productRowsUnsorted l)).map _).sum_eq
  · unfold aggregate_sales_by_region
    rw [List.map_map]
    rw [sum_map_dictFold (fun a : RegionAcc => a.region)
      (fun r : CleanRecord => r.region) bumpRegion RegionAcc.init
      ((fun row : RegionRow => row.total_sales) ∘ finalizeRegion)
      (fun _ : CleanRecord => (1 : Nat)) (fun _ _ => rfl) (fun _ => rfl) l]
    exact sum_map_one l
  · rw [← hProdSal]
    exact ((sortByRevenueDesc_perm (productRowsUnsorted l)).map _).sum_eq

end ETL
